import Mathlib

/-!
# NRF service lifecycle (`NFs/nrf/service/init.go`)

A shallow embedding of the `service` package of the NRF network function:
`FilterCli`, `Start` (with its Redis latency window and compaction loop) and
`Terminate`.

Conventions of the embedding.

* Go `int64` values are `Int`s; every `int64` addition or subtraction of the
  source is followed by `wrap64` (two's complement wrap-around), and `/` on
  `int64` is `Int.tdiv` (truncation toward zero).
* Go strings are `String`s.  `strconv.ParseInt(s, 10, 64)` and the decimal
  rendering go-redis applies to an `int64` argument (`strconv.AppendInt`) are
  embedded from the Go standard library as `ParseInt` and `FormatInt`.
* The Redis server is a value of type `Store`: the string under key `golang`,
  the list under key `nrflatency` (head = left end) and a flag telling whether
  the server answers.  `LPush` adds at the head and `LPop` removes the head.
* A run of `Start` is the list of calls it makes, in program order
  (`Effect`), the store it leaves and the way it ends (`Outcome`).
-/

namespace NRF

/-! ## 64-bit integers -/

/-- The value 2^63. -/
def two63 : Int := 9223372036854775808

/-- The value 2^64. -/
def two64 : Int := 18446744073709551616

/-- Two's complement wrap-around of a mathematical integer into `int64`. -/
def wrap64 (x : Int) : Int := (x + two63) % two64 - two63

/-- The range of `int64`. -/
def inInt64 (x : Int) : Prop := -two63 ≤ x ∧ x < two63

instance (x : Int) : Decidable (inInt64 x) := by
  unfold inInt64; exact inferInstance

/-! ## `strconv` -/

/-- The two error kinds of `strconv.NumError`. -/
inductive NumErr where
  | ErrSyntax
  | ErrRange
  deriving DecidableEq

/-- The constant `maxUint64` of `strconv`. -/
def maxUint64 : Nat := 18446744073709551615

/-- The function `lower` of `strconv`: `c | ('x' - 'X')`. -/
def lower (c : Nat) : Nat := c ||| 32

/-- The digit `switch` in the loop of `strconv.ParseUint` (base 10, so the
underscore case is off): the value of a digit or letter, `none` for the
`default` branch. -/
def digitVal (c : Char) : Option Nat :=
  if 48 ≤ c.toNat ∧ c.toNat ≤ 57 then some (c.toNat - 48)
  else if 97 ≤ lower c.toNat ∧ lower c.toNat ≤ 122 then some (lower c.toNat - 97 + 10)
  else none

/-- The loop of `strconv.ParseUint(s, 10, 64)` over the characters of `s`,
with `n` the value accumulated so far.  `cutoff` is `maxUint64/10 + 1`. -/
def parseUintLoop : List Char → Nat → Nat × Option NumErr
  | [], n => (n, none)
  | c :: cs, n =>
    match digitVal c with
    | none => (0, some NumErr.ErrSyntax)
    | some d =>
      if d ≥ 10 then (0, some NumErr.ErrSyntax)
      else if n ≥ maxUint64 / 10 + 1 then (maxUint64, some NumErr.ErrRange)
      else
        let n10 := n * 10
        let n1 := (n10 + d) % 18446744073709551616
        if n1 < n10 ∨ n1 > maxUint64 then (maxUint64, some NumErr.ErrRange)
        else parseUintLoop cs n1

/-- The call `strconv.ParseUint(s, 10, 64)`. -/
def ParseUint (s : List Char) : Nat × Option NumErr :=
  match s with
  | [] => (0, some NumErr.ErrSyntax)
  | _ => parseUintLoop s 0

/-- The call `strconv.ParseInt(s, 10, 64)`: the value returned together with
the error (`none` for `nil`).  A malformed string gives `(0, ErrSyntax)`, an
out-of-range one the nearest bound and `ErrRange`. -/
def ParseInt (s : String) : Int × Option NumErr :=
  match s.data with
  | [] => (0, some NumErr.ErrSyntax)
  | c :: rest =>
    let neg : Bool := c = '-'
    let body := if c = '+' ∨ c = '-' then rest else c :: rest
    match ParseUint body with
    | (_, some NumErr.ErrSyntax) => (0, some NumErr.ErrSyntax)
    | (un, _) =>
      if neg = false ∧ (un : Int) ≥ two63 then (two63 - 1, some NumErr.ErrRange)
      else if neg = true ∧ (un : Int) > two63 then (-two63, some NumErr.ErrRange)
      else
        let n := wrap64 (un : Int)
        (if neg then wrap64 (-n) else n, none)

/-- The ASCII digit for `d < 10`. -/
def digitChar (d : Nat) : Char := Char.ofNat (48 + d)

/-- The digit loop of `strconv.formatBits` in base 10: the decimal digits of
`n`, most significant first.  The first argument bounds the number of digits
the way the fixed buffer of `formatBits` does; 20 digits hold every
`uint64`. -/
def fmtNat : Nat → Nat → List Char
  | 0, _ => []
  | fuel + 1, n =>
    if n < 10 then [digitChar n]
    else fmtNat fuel (n / 10) ++ [digitChar (n % 10)]

/-- The decimal rendering of an `int64` (`strconv.FormatInt(i, 10)`), which
go-redis uses to encode an `int64` command argument. -/
def FormatInt (i : Int) : String :=
  if i < 0 then String.mk ('-' :: fmtNat 20 i.natAbs)
  else String.mk (fmtNat 20 i.natAbs)

/-! ## The Redis store -/

/-- Errors returned by the calls of `Start` and the runtime faults raised in
it. -/
inductive Err where
  /-- The error `redis.Nil`: the key is absent, or the list is empty. -/
  | redisNil
  /-- The server does not answer. -/
  | redisDown
  /-- A `*strconv.NumError` of `ParseInt` for the given input. -/
  | num (input : String) (e : NumErr)
  /-- The runtime error "index out of range [i] with length len". -/
  | indexOutOfRange (i len : Nat)
  deriving DecidableEq

/-- The Redis server as `Start` sees it. -/
structure Store where
  /-- Whether the server at 127.0.0.1:6379 answers; when it does not, every
  command returns an error and changes nothing. -/
  up : Bool
  /-- The string under key `golang`, if the key exists. -/
  golang : Option String
  /-- The list under key `nrflatency`, head first (an absent key is the empty
  list). -/
  nrflatency : List String
  deriving DecidableEq

namespace Store

/-- The call `client.Get("golang").Result()`: value (empty on error) and
error. -/
def Get (st : Store) : String × Option Err :=
  if st.up then
    match st.golang with
    | some v => (v, none)
    | none => ("", some Err.redisNil)
  else ("", some Err.redisDown)

/-- The call `client.Ping().Result()`. -/
def Ping (st : Store) : String × Option Err :=
  if st.up then ("PONG", none) else ("", some Err.redisDown)

/-- The call `client.LPush("nrflatency", v)`: the value is added at the head
of the list. -/
def LPush (st : Store) (v : String) : Store × Option Err :=
  if st.up then ({ st with nrflatency := v :: st.nrflatency }, none)
  else (st, some Err.redisDown)

/-- The call `client.LLen("nrflatency").Result()`. -/
def LLen (st : Store) : Int × Option Err :=
  if st.up then ((st.nrflatency.length : Int), none) else (0, some Err.redisDown)

/-- The call `client.LPop("nrflatency").Result()`: the head of the list is
removed and returned. -/
def LPop (st : Store) : Store × String × Option Err :=
  if st.up then
    match st.nrflatency with
    | [] => (st, "", some Err.redisNil)
    | x :: xs => ({ st with nrflatency := xs }, x, none)
  else (st, "", some Err.redisDown)

end Store

/-! ## Effects of `Start` -/

/-- The three route groups registered by `Start`. -/
inductive Service where
  | accesstoken
  | discovery
  | management
  deriving DecidableEq

/-- An operand of `fmt.Println`. -/
inductive PVal where
  | str (s : String)
  | int (i : Int)
  | err (e : Option Err)
  deriving DecidableEq

/-- The calls made by `Start`, one constructor per call site kind. -/
inductive Effect where
  | setMongoDB
  | logInfo (msg : String)
  | logWarn (msg : String)
  | logError (msg : String)
  | logFatal (msg : String)
  | newGin
  | addService (s : Service)
  | initNrfContext
  /-- The call `signal.Notify(signalChannel, os.Interrupt, syscall.SIGTERM)` on
  the channel made just before. -/
  | signalNotify
  /-- The `go` statement that starts the signal watcher. -/
  | goWatcher
  | getSbiBindingAddr
  | redisNewClient
  | redisGet (key : String)
  | timeNow
  | redisPing
  | redisLPush (key : String) (value : String)
  | redisLLen (key : String)
  | redisLPop (key : String)
  | println (args : List PVal)
  | newServer
  | getSbiScheme
  | listenAndServe
  | listenAndServeTLS
  deriving DecidableEq

deriving instance DecidableEq for Except

/-- A fragment of `Start` that has run: the calls it made, the store it left
and its result, `error` when it ended in a panic. -/
structure Frag (α : Type) where
  effects : List Effect
  store : Store
  result : Except Err α

/-! ## The latency window (lines 203-262) -/

/-- The loop `for i <= count` of lines 244-255, with `i` the loop variable,
`total` the variable `latency_total` and the first argument the number
`count + 1 - i` of iterations still to run.  The arrays `nrf` and `nrf_int`
have length 11.  In `nrf[i], err = client.LPop(..).Result()` the call is
evaluated first and the assignment to `nrf[i]` is carried out after it, so an
index out of range faults after the element has been popped and before `err`
is looked at. -/
def drainLoop : Nat → Nat → Int → Store → Frag Int
  | 0, _, total, st => ⟨[], st, Except.ok total⟩
  | r + 1, i, total, st =>
    let popped := st.LPop
    if i ≥ 11 then
      ⟨[Effect.redisLPop "nrflatency"], popped.1, Except.error (Err.indexOutOfRange i 11)⟩
    else
      match popped.2.2 with
      | some e => ⟨[Effect.redisLPop "nrflatency"], popped.1, Except.error e⟩
      | none =>
        let parsed := ParseInt popped.2.1
        match parsed.2 with
        | some e =>
          ⟨[Effect.redisLPop "nrflatency"], popped.1, Except.error (Err.num popped.2.1 e)⟩
        | none =>
          let rest := drainLoop r (i + 1) (wrap64 (total + parsed.1)) popped.1
          ⟨Effect.redisLPop "nrflatency" :: rest.effects, rest.store, rest.result⟩

/-- The body of `if count >= 10` (lines 236-261): drain `count` elements,
average them and push the average.  It is entered with `count >= 10` only, so
the division is by a positive number. -/
def compaction (count : Int) (st : Store) : Frag Unit :=
  let loop := drainLoop count.toNat 1 0 st
  let head := Effect.println [PVal.str "Process of printing average latency"]
  match loop.result with
  | Except.error e => ⟨head :: loop.effects, loop.store, Except.error e⟩
  | Except.ok latency_total =>
    let latency_avg := Int.tdiv latency_total count
    let pushed := loop.store.LPush (FormatInt latency_avg)
    ⟨head :: loop.effects ++
        [Effect.redisLPush "nrflatency" (FormatInt latency_avg),
         Effect.println [PVal.str "latency average is stored"]],
      pushed.1, Except.ok ()⟩

/-- The variable `time_total` of `Start`: the instant read from the clock, in
microseconds, minus the instant parsed from the value under `golang`. -/
def timeTotal (st : Store) (unixNano : Int) : Int :=
  let time1 := (ParseInt st.Get.1).1
  let time2 := Int.tdiv unixNano 1000
  wrap64 (time2 - time1)

/-- An `if err != nil { fmt.Println(err) }`. -/
def printErr : Option Err → List Effect
  | some e => [Effect.println [PVal.err (some e)]]
  | none => []

/-- Lines 203-262 of `Start`: read the reference instant, push the latency
sample, read the length of the window and compact it when it is at least 10.
`unixNano` is what `time.Now().UnixNano()` returns. -/
def telemetryStep (st : Store) (unixNano : Int) : Frag Unit :=
  let got := st.Get
  let parsed := ParseInt got.1
  let parseErr : Option Err := parsed.2.map (Err.num got.1)
  let time2 := Int.tdiv unixNano 1000
  let time_total := timeTotal st unixNano
  let pong := st.Ping
  let pushed := st.LPush (FormatInt time_total)
  let len := pushed.1.LLen
  let pre : List Effect :=
    [Effect.redisNewClient, Effect.redisGet "golang"] ++ printErr got.2 ++ printErr parseErr ++
    [Effect.timeNow,
     Effect.println [PVal.str "NRF config loading end time is :", PVal.int time2],
     Effect.println [PVal.str "Latency for NRF loading is : ", PVal.int time_total],
     Effect.redisPing,
     Effect.println [PVal.str pong.1, PVal.err pong.2],
     Effect.redisLPush "nrflatency" (FormatInt time_total),
     Effect.println [PVal.str "time_total stored"],
     Effect.redisLLen "nrflatency"]
  match len.2 with
  | some e => ⟨pre, pushed.1, Except.error e⟩
  | none =>
    let pre2 := pre ++ [Effect.println [PVal.int len.1]]
    if len.1 ≥ 10 then
      let c := compaction len.1 pushed.1
      ⟨pre2 ++ c.effects, c.store, c.result⟩
    else ⟨pre2, pushed.1, Except.ok ()⟩

/-! ## `Start` -/

/-- What `Start` reads from outside the package. -/
structure Env where
  /-- The Redis server when `Start` is entered. -/
  store : Store
  /-- The value of `time.Now().UnixNano()` at line 218. -/
  unixNano : Int
  /-- The value of `factory.NrfConfig.GetSbiBindingAddr()`. -/
  bindAddr : String
  /-- Whether `http2_util.NewServer` returns a server (`false`: it returns
  `nil`). -/
  server : Bool
  /-- The error returned by `http2_util.NewServer`, `none` for `nil`. -/
  serverErr : Option String
  /-- The value of `factory.NrfConfig.GetSbiScheme()`. -/
  scheme : String
  /-- What the serve call does: `none` when it never returns, otherwise the
  error it returns (`some none` for `nil`). -/
  serveResult : Option (Option String)

/-- How a run of `Start` ends. -/
inductive Outcome where
  /-- `Start` returns to its caller. -/
  | returned
  /-- A panic unwinds `Start`. -/
  | panicked (e : Err)
  /-- The process exits (`Fatalf` exits with status 1). -/
  | exited (code : Nat)
  /-- `Start` stays in the serve call. -/
  | serving
  deriving DecidableEq

/-- A run of `Start`. -/
structure Run where
  effects : List Effect
  store : Store
  outcome : Outcome
  deriving DecidableEq

/-- The text `%+v` prints for an error value. -/
def errText : Option String → String
  | some e => e
  | none => "<nil>"

/-- Lines 178-200 of `Start`: database, router, the three route groups, the
context, the signal watcher and the bind address. -/
def wiring (env : Env) : List Effect :=
  [Effect.setMongoDB,
   Effect.logInfo "Server started",
   Effect.newGin,
   Effect.addService Service.accesstoken,
   Effect.addService Service.discovery,
   Effect.addService Service.management,
   Effect.initNrfContext,
   Effect.signalNotify,
   Effect.goWatcher,
   Effect.getSbiBindingAddr,
   Effect.logInfo ("Binding addr: [" ++ env.bindAddr ++ "]")]

/-- Lines 283-285: `if err != nil { initLog.Fatalf(..) }` and the end of
`Start`. -/
def finish (effects : List Effect) (st : Store) (err : Option String) : Run :=
  match err with
  | some e => ⟨effects ++ [Effect.logFatal ("HTTP server setup failed: " ++ e)], st, Outcome.exited 1⟩
  | none => ⟨effects, st, Outcome.returned⟩

/-- Lines 278 and 280: the serve call `call` and what follows it. -/
def serve (env : Env) (effects : List Effect) (st : Store) (call : Effect) : Run :=
  match env.serveResult with
  | none => ⟨effects ++ [call], st, Outcome.serving⟩
  | some err => finish (effects ++ [call]) st err

/-- Lines 272-274: `if err != nil { initLog.Warnf(..) }` after `NewServer`. -/
def serverWarning (err : Option String) : List Effect :=
  match err with
  | some e => [Effect.logWarn ("Initialize HTTP server: +" ++ e)]
  | none => []

/-- The method `Start` (lines 177-287). -/
def Start (env : Env) : Run :=
  let tel := telemetryStep env.store env.unixNano
  let upTo := wiring env ++ tel.effects
  match tel.result with
  | Except.error e => ⟨upTo, tel.store, Outcome.panicked e⟩
  | Except.ok _ =>
    if env.server = false then
      ⟨upTo ++ [Effect.newServer,
          Effect.logError ("Initialize HTTP server failed: " ++ errText env.serverErr)],
        tel.store, Outcome.returned⟩
    else
      let effects :=
        upTo ++ [Effect.newServer] ++ serverWarning env.serverErr ++ [Effect.getSbiScheme]
      if env.scheme = "http" then serve env effects tel.store Effect.listenAndServe
      else if env.scheme = "https" then serve env effects tel.store Effect.listenAndServeTLS
      else finish effects tel.store env.serverErr

/-! ## `FilterCli` -/

/-- A `cli.StringFlag`. -/
structure StringFlag where
  Name : String
  Usage : String
  deriving DecidableEq

/-- The variable `nrfCLi`. -/
def nrfCLi : List StringFlag :=
  [⟨"free5gccfg", "common config file"⟩, ⟨"nrfcfg", "config file"⟩]

/-- The method `GetCliCmd`. -/
def GetCliCmd : List StringFlag := nrfCLi

/-- A `*cli.Context`, reduced to its flag set: the current value of each
defined string flag, `none` for a name the flag set does not define. -/
structure Context where
  flagSet : String → Option String

/-- The method `c.Generic(name)`: the value object of the flag, `nil` when the
flag set has no such flag. -/
def Context.Generic (c : Context) (name : String) : Option String := c.flagSet name

/-- The call `fmt.Sprint(v)` on what `Generic` returns: the string of a string
flag's value, and `<nil>` for `nil`. -/
def Sprint : Option String → String
  | some v => v
  | none => "<nil>"

/-- The method `FilterCli` (lines 164-175). -/
def FilterCli (c : Context) : List String :=
  GetCliCmd.foldl
    (fun args flag =>
      let name := flag.Name
      let value := Sprint (c.Generic name)
      if value = "" then args else args ++ ["--" ++ name, value])
    []

/-! ## `Terminate` -/

/-- The logrus level `InfoLevel`. -/
def InfoLevel : Nat := 4

/-- A record written by the logger: level and message. -/
structure LogRecord where
  level : Nat
  msg : String
  deriving DecidableEq

/-- The logger behind `logger.InitLog`: its level (logrus numbers the levels
from `PanicLevel` = 0 to `TraceLevel` = 6) and the records written so far,
oldest first. -/
structure Logger where
  level : Nat
  records : List LogRecord
  deriving DecidableEq

/-- The method `Infof` of a logrus entry: the record is written when the
logger's level is at least `InfoLevel`. -/
def Logger.Infof (lg : Logger) (msg : String) : Logger :=
  if lg.level ≥ InfoLevel then { lg with records := lg.records ++ [⟨InfoLevel, msg⟩] } else lg

/-- The method `Terminate` (lines 340-344). -/
def Terminate (lg : Logger) : Logger :=
  (lg.Infof "Terminating NRF...").Infof "NRF terminated"

/-! ## Auxiliary definitions for the statements -/

/-- The running total of the loop after the values `vs`, from `total`. -/
def runningTotal (total : Int) (vs : List Int) : Int :=
  vs.foldl (fun t v => wrap64 (t + v)) total

/-- The calls on the store, the clock and the standard output: the only calls
the telemetry step makes. -/
def Effect.isTelemetry : Effect → Bool
  | Effect.redisNewClient => true
  | Effect.redisGet _ => true
  | Effect.timeNow => true
  | Effect.redisPing => true
  | Effect.redisLPush _ _ => true
  | Effect.redisLLen _ => true
  | Effect.redisLPop _ => true
  | Effect.println _ => true
  | _ => false

/-- The two serve calls. -/
def Effect.isServe : Effect → Bool
  | Effect.listenAndServe => true
  | Effect.listenAndServeTLS => true
  | _ => false

/-- The calls of `Start` up to the serve call, in a run that reaches it. -/
def preServe (env : Env) : List Effect :=
  wiring env ++ (telemetryStep env.store env.unixNano).effects ++ [Effect.newServer] ++
    serverWarning env.serverErr ++ [Effect.getSbiScheme]

/-- The records one call of `Terminate` writes at the given logger level. -/
def terminateRecords (level : Nat) : List LogRecord :=
  if level ≥ InfoLevel then [⟨InfoLevel, "Terminating NRF..."⟩, ⟨InfoLevel, "NRF terminated"⟩]
  else []

/-! ## Arithmetic of `int64` -/

theorem wrap64_of_inInt64 {x : Int} (h : inInt64 x) : wrap64 x = x := by
  unfold inInt64 two63 at h
  unfold wrap64 two63 two64
  omega

theorem inInt64_wrap64 (x : Int) : inInt64 (wrap64 x) := by
  unfold inInt64 wrap64 two63 two64
  omega

theorem wrap64_add_wrap64 (a b : Int) : wrap64 (wrap64 a + b) = wrap64 (a + b) := by
  unfold wrap64 two63 two64
  omega

/-! ## `ParseInt` after `FormatInt` -/

theorem digitVal_digitChar {d : Nat} (h : d < 10) : digitVal (digitChar d) = some d := by
  interval_cases d <;> rfl

theorem digitChar_ne_sign {d : Nat} (h : d < 10) :
    digitChar d ≠ '+' ∧ digitChar d ≠ '-' := by
  interval_cases d <;> decide

theorem parseUintLoop_append (l1 l2 : List Char) :
    ∀ (a v : Nat), parseUintLoop l1 a = (v, none) →
      parseUintLoop (l1 ++ l2) a = parseUintLoop l2 v := by
  induction l1 with
  | nil =>
    intro a v h
    simp [parseUintLoop] at h
    simp [h]
  | cons c cs ih =>
    intro a v h
    simp only [List.cons_append, parseUintLoop] at h ⊢
    split at h
    · simp at h
    · split at h
      · simp at h
      · split at h
        · simp at h
        · split at h
          · simp at h
          · rename_i d hd h1 h2 h3
            simp only [hd, h1, h2, h3, if_false]
            exact ih _ _ h

theorem parseUintLoop_digit (n d : Nat) (hd : d < 10) (hn : n * 10 + d < 18446744073709551616) :
    parseUintLoop [digitChar d] n = (n * 10 + d, none) := by
  have h1 : ¬ (n ≥ maxUint64 / 10 + 1) := by unfold maxUint64; omega
  have h2 : (n * 10 + d) % 18446744073709551616 = n * 10 + d := Nat.mod_eq_of_lt hn
  have h3 : ¬ (n * 10 + d < n * 10 ∨ n * 10 + d > maxUint64) := by unfold maxUint64; omega
  simp only [parseUintLoop, digitVal_digitChar hd]
  simp only [h2]
  rw [if_neg (by omega), if_neg h1, if_neg h3]

theorem parseUintLoop_fmtNat :
    ∀ (fuel n : Nat), n < 10 ^ fuel → n < 18446744073709551616 →
      parseUintLoop (fmtNat fuel n) 0 = (n, none) := by
  intro fuel
  induction fuel with
  | zero =>
    intro n h _
    have : n = 0 := by simpa using h
    subst this
    rfl
  | succ f ih =>
    intro n h hn
    unfold fmtNat
    by_cases hlt : n < 10
    · rw [if_pos hlt]
      have := parseUintLoop_digit 0 n hlt (by omega)
      simpa using this
    · rw [if_neg hlt]
      have hq : n / 10 < 10 ^ f := by
        rw [pow_succ] at h
        omega
      have h1 := ih (n / 10) hq (by omega)
      rw [parseUintLoop_append _ _ _ _ h1]
      have h2 := parseUintLoop_digit (n / 10) (n % 10) (by omega) (by omega)
      rw [h2]
      congr 1
      omega

theorem fmtNat_no_sign : ∀ (fuel n : Nat) (c : Char), c ∈ fmtNat fuel n → c ≠ '+' ∧ c ≠ '-' := by
  intro fuel
  induction fuel with
  | zero => intro n c h; simp [fmtNat] at h
  | succ f ih =>
    intro n c h
    unfold fmtNat at h
    by_cases hlt : n < 10
    · rw [if_pos hlt] at h
      simp only [List.mem_singleton] at h
      subst h
      exact digitChar_ne_sign hlt
    · rw [if_neg hlt] at h
      rcases List.mem_append.mp h with h | h
      · exact ih _ _ h
      · simp only [List.mem_singleton] at h
        subst h
        exact digitChar_ne_sign (by omega)

theorem fmtNat_ne_nil (fuel n : Nat) : fmtNat (fuel + 1) n ≠ [] := by
  unfold fmtNat
  split <;> simp

theorem ParseUint_fmtNat (n : Nat) (hn : n < 18446744073709551616) :
    ParseUint (fmtNat 20 n) = (n, none) := by
  have h := parseUintLoop_fmtNat 20 n (by omega) hn
  unfold ParseUint
  split
  · rename_i heq
    exact absurd heq (fmtNat_ne_nil 19 n)
  · exact h

/-- Reading back the decimal rendering of an `int64` gives the value and no
error. -/
theorem ParseInt_FormatInt (x : Int) (hx : inInt64 x) : ParseInt (FormatInt x) = (x, none) := by
  unfold inInt64 two63 at hx
  unfold FormatInt
  by_cases hneg : x < 0
  · rw [if_pos hneg]
    obtain ⟨n, rfl⟩ := Int.exists_eq_neg_ofNat (le_of_lt hneg)
    have hnat : (-(n : Int)).natAbs = n := by simp
    rw [hnat]
    have hp := ParseUint_fmtNat n (by omega)
    simp only [ParseInt]
    rw [if_pos (Or.inr trivial), hp]
    have h1 : ¬ ((decide True = false) ∧ (n : Int) ≥ two63) := by simp
    have h2 : ¬ ((decide True = true) ∧ (n : Int) > two63) := by
      unfold two63; omega
    simp only [h1, h2, if_false]
    have h3 : wrap64 (-wrap64 (n : Int)) = -(n : Int) := by
      unfold wrap64 two63 two64; omega
    simp [h3]
  · rw [if_neg hneg]
    obtain ⟨n, rfl⟩ := Int.eq_ofNat_of_zero_le (not_lt.mp hneg)
    have hnat : ((n : Int)).natAbs = n := by simp
    rw [hnat]
    have hp := ParseUint_fmtNat n (by omega)
    obtain ⟨c, rest, hcr⟩ := List.exists_cons_of_ne_nil (fmtNat_ne_nil 19 n)
    have hmem : c ∈ fmtNat 20 n := by rw [hcr]; simp
    have hs := fmtNat_no_sign 20 n c hmem
    simp only [ParseInt, hcr]
    simp only [hs.1, hs.2, or_self, if_false, ← hcr]
    rw [hp]
    have h1 : ¬ ((decide False = false) ∧ (n : Int) ≥ two63) := by
      unfold two63; omega
    have h2 : ¬ ((decide False = true) ∧ (n : Int) > two63) := by simp
    simp only [h1, h2, if_false]
    have h3 : wrap64 (n : Int) = (n : Int) := by
      unfold wrap64 two63 two64; omega
    simp [h3]

/-! ## The drain loop -/

theorem runningTotal_eq (vs : List Int) :
    ∀ total : Int, inInt64 total → runningTotal total vs = wrap64 (total + vs.sum) := by
  induction vs with
  | nil =>
    intro total h
    simp [runningTotal, wrap64_of_inInt64 h]
  | cons v vs ih =>
    intro total _
    have h := ih (wrap64 (total + v)) (inInt64_wrap64 _)
    simp only [runningTotal, List.foldl_cons, List.sum_cons] at h ⊢
    rw [h, wrap64_add_wrap64, add_assoc]

/-- While the index stays below 11 and the entries popped parse, the loop pops
them one after the other and goes on with the rest of its iterations. -/
theorem drainLoop_pops (es : List String) :
    ∀ (vs : List Int) (rest : List String) (k i : Nat) (total : Int) (st : Store),
      st.up = true → st.nrflatency = es ++ rest →
      es.map ParseInt = vs.map (fun v => (v, none)) → i + es.length ≤ 11 →
      drainLoop (es.length + k) i total st =
        ⟨List.replicate es.length (Effect.redisLPop "nrflatency") ++
            (drainLoop k (i + es.length) (runningTotal total vs)
              { st with nrflatency := rest }).effects,
          (drainLoop k (i + es.length) (runningTotal total vs)
              { st with nrflatency := rest }).store,
          (drainLoop k (i + es.length) (runningTotal total vs)
              { st with nrflatency := rest }).result⟩ := by
  induction es with
  | nil =>
    intro vs rest k i total st _ hw hp _
    have hvs : vs = [] := by
      cases vs with
      | nil => rfl
      | cons v vs => simp at hp
    subst hvs
    have hst : ({ st with nrflatency := rest } : Store) = st := by
      cases st
      simp only [List.nil_append] at hw
      simp [hw]
    simp [hst, runningTotal]
  | cons e es ih =>
    intro vs rest k i total st hup hw hp hi
    cases vs with
    | nil => simp at hp
    | cons v vs =>
      simp only [List.map_cons, List.cons.injEq] at hp
      obtain ⟨hpe, hps⟩ := hp
      simp only [List.length_cons] at hi
      have hlen : (e :: es).length + k = (es.length + k) + 1 := by
        simp only [List.length_cons]; omega
      rw [hlen]
      have hpop : st.LPop = ({ st with nrflatency := es ++ rest }, e, none) := by
        simp [Store.LPop, hup, hw]
      have hi11 : ¬ (i ≥ 11) := by omega
      simp only [drainLoop, hpop, hpe, if_neg hi11]
      have h := ih vs rest k (i + 1) (wrap64 (total + v)) { st with nrflatency := es ++ rest }
        hup rfl hps (by omega)
      rw [h]
      have hidx : i + 1 + es.length = i + (e :: es).length := by
        simp only [List.length_cons]; omega
      simp only [hidx, runningTotal, List.foldl_cons, List.replicate_succ, List.length_cons,
        List.cons_append]

/-! ## Compaction of a window of ten -/

/-- The store after the push of line 227, when the server answers. -/
theorem LPush_up (st : Store) (v : String) (hup : st.up = true) :
    st.LPush v = ({ st with nrflatency := v :: st.nrflatency }, none) := by
  simp [Store.LPush, hup]

/-- On a window of exactly ten entries that all parse, the compaction pops the
ten entries and pushes the quotient of their wrapped sum by ten. -/
theorem compaction_ten (st : Store) (vs : List Int) (hup : st.up = true)
    (hlen : st.nrflatency.length = 10)
    (hp : st.nrflatency.map ParseInt = vs.map (fun v => (v, none))) :
    (compaction 10 st).store.nrflatency = [FormatInt (Int.tdiv (wrap64 vs.sum) 10)] ∧
    (compaction 10 st).result = Except.ok () := by
  have h := drainLoop_pops st.nrflatency vs [] 0 1 0 st hup (by simp) hp (by omega)
  rw [hlen] at h
  have hrun : runningTotal 0 vs = wrap64 vs.sum := by
    rw [runningTotal_eq vs 0 (by decide)]; simp
  have h10 : (10 : Int).toNat = 10 := rfl
  simp only [compaction, h10]
  rw [h]
  simp [drainLoop, hrun, Store.LPush, hup]

theorem tdiv_ten_inInt64 {x : Int} (hx : inInt64 x) : inInt64 (Int.tdiv x 10) := by
  unfold inInt64 two63 at hx ⊢
  by_cases h : 0 ≤ x
  · rw [Int.tdiv_eq_ediv h (by decide)]
    omega
  · obtain ⟨n, rfl⟩ := Int.exists_eq_neg_ofNat (le_of_lt (not_le.mp h))
    rw [Int.neg_tdiv, Int.tdiv_eq_ediv (Int.ofNat_nonneg n) (by decide)]
    omega

theorem inInt64_timeTotal (st : Store) (unixNano : Int) : inInt64 (timeTotal st unixNano) := by
  unfold timeTotal
  exact inInt64_wrap64 _

/-- With the server answering, the telemetry step on a window of nine entries
is the compaction of the ten entries that the push leaves. -/
theorem telemetryStep_nine (st : Store) (unixNano : Int) (hup : st.up = true)
    (hlen : st.nrflatency.length = 9) :
    (telemetryStep st unixNano).store =
      (compaction 10
        { st with nrflatency := FormatInt (timeTotal st unixNano) :: st.nrflatency }).store ∧
    (telemetryStep st unixNano).result =
      (compaction 10
        { st with nrflatency := FormatInt (timeTotal st unixNano) :: st.nrflatency }).result := by
  simp [telemetryStep, Store.LPush, Store.LLen, hup, hlen]

/-- With the server answering, the telemetry step on a window of fewer than
nine entries only pushes. -/
theorem telemetryStep_short (st : Store) (unixNano : Int) (hup : st.up = true)
    (hlen : st.nrflatency.length < 9) :
    (telemetryStep st unixNano).store =
      { st with nrflatency := FormatInt (timeTotal st unixNano) :: st.nrflatency } ∧
    (telemetryStep st unixNano).result = Except.ok () ∧
    Effect.redisLPop "nrflatency" ∉ (telemetryStep st unixNano).effects := by
  have h : ¬ ((st.nrflatency.length : Int) + 1 ≥ 10) := by omega
  simp only [telemetryStep, Store.LPush, Store.LLen, hup, if_true, List.length_cons,
    Nat.cast_add, Nat.cast_one, if_neg h]
  refine ⟨trivial, trivial, ?_⟩
  cases st.Get.2 <;> cases (ParseInt st.Get.1).2 <;> simp [printErr]

/-! ## The claims on the latency window -/

/-- C1 (as amended): when the server answers and the window holds nine entries
that parse to the samples `vs`, one run of the telemetry step leaves the window
holding exactly one element, the decimal rendering of the quotient, truncated
toward zero, of the 64-bit wrapped sum of the new sample and `vs` by ten.  The
element reads back as that quotient; the quotient is the truncated quotient of
the true sum when the true sum fits in 64 bits, and is its floor when the true
sum is moreover not negative. -/
theorem telemetryStep_compacts_ten (st : Store) (unixNano : Int) (vs : List Int)
    (hup : st.up = true) (hlen : st.nrflatency.length = 9)
    (hp : st.nrflatency.map ParseInt = vs.map (fun v => (v, none))) :
    (telemetryStep st unixNano).store.nrflatency =
      [FormatInt (Int.tdiv (wrap64 (timeTotal st unixNano + vs.sum)) 10)] ∧
    (telemetryStep st unixNano).result = Except.ok () ∧
    ParseInt (FormatInt (Int.tdiv (wrap64 (timeTotal st unixNano + vs.sum)) 10)) =
      (Int.tdiv (wrap64 (timeTotal st unixNano + vs.sum)) 10, none) ∧
    (inInt64 (timeTotal st unixNano + vs.sum) →
      Int.tdiv (wrap64 (timeTotal st unixNano + vs.sum)) 10 =
        Int.tdiv (timeTotal st unixNano + vs.sum) 10) ∧
    (0 ≤ timeTotal st unixNano + vs.sum → timeTotal st unixNano + vs.sum < two63 →
      Int.tdiv (wrap64 (timeTotal st unixNano + vs.sum)) 10 =
        (timeTotal st unixNano + vs.sum) / 10) := by
  obtain ⟨hs, hr⟩ := telemetryStep_nine st unixNano hup hlen
  have hc := compaction_ten
    { st with nrflatency := FormatInt (timeTotal st unixNano) :: st.nrflatency }
    (timeTotal st unixNano :: vs) hup (by simp [hlen])
    (by simp [hp, ParseInt_FormatInt _ (inInt64_timeTotal st unixNano)])
  simp only [List.sum_cons] at hc
  refine ⟨?_, ?_, ?_, ?_, ?_⟩
  · rw [hs]; exact hc.1
  · rw [hr]; exact hc.2
  · exact ParseInt_FormatInt _ (tdiv_ten_inInt64 (inInt64_wrap64 _))
  · intro h
    rw [wrap64_of_inInt64 h]
  · intro h0 h1
    have hin : inInt64 (timeTotal st unixNano + vs.sum) := by
      unfold inInt64 two63 at *
      omega
    rw [wrap64_of_inInt64 hin, Int.tdiv_eq_ediv h0 (by decide)]

/-- Witness of C1: the scenario of the specification, the nine samples
`100, 200, ..., 100` pushed one after the other and the new sample `200`,
leaves the window `["150"]`. -/
theorem telemetryStep_compacts_ten_witness :
    (telemetryStep ⟨true, some "0",
        ["100", "200", "100", "200", "100", "200", "100", "200", "100"]⟩ 200000).store.nrflatency =
      ["150"] :=
  (telemetryStep_compacts_ten
    ⟨true, some "0", ["100", "200", "100", "200", "100", "200", "100", "200", "100"]⟩ 200000
    [100, 200, 100, 200, 100, 200, 100, 200, 100] rfl rfl (by decide)).1

/-- C1 as stated fails.  With the nine stored samples `0` and the new sample
`-1` (the reference instant is one microsecond after the clock), the window is
left holding `0`, the quotient truncated toward zero, and not the floor `-1` of
`-1 / 10`.  With ten samples equal to 2^62 the sum wraps to -2^63 and the
window is left holding `-922337203685477580`, not the floor 2^62 of the mean. -/
theorem telemetryStep_mean_not_floor :
    (timeTotal ⟨true, some "1", List.replicate 9 "0"⟩ 0 = -1 ∧
      (List.replicate 9 "0").map ParseInt =
        (List.replicate 9 (0 : Int)).map (fun v => (v, none)) ∧
      (telemetryStep ⟨true, some "1", List.replicate 9 "0"⟩ 0).store.nrflatency = ["0"] ∧
      (telemetryStep ⟨true, some "1", List.replicate 9 "0"⟩ 0).store.nrflatency ≠
        [FormatInt ((-1 + (List.replicate 9 (0 : Int)).sum) / 10)]) ∧
    (timeTotal ⟨true, some "-4611686018427387904",
        List.replicate 9 "4611686018427387904"⟩ 0 = 4611686018427387904 ∧
      (List.replicate 9 "4611686018427387904").map ParseInt =
        (List.replicate 9 (4611686018427387904 : Int)).map (fun v => (v, none)) ∧
      (telemetryStep ⟨true, some "-4611686018427387904",
        List.replicate 9 "4611686018427387904"⟩ 0).store.nrflatency =
          ["-922337203685477580"] ∧
      (telemetryStep ⟨true, some "-4611686018427387904",
        List.replicate 9 "4611686018427387904"⟩ 0).store.nrflatency ≠
          [FormatInt ((4611686018427387904 +
            (List.replicate 9 (4611686018427387904 : Int)).sum) / 10)]) := by
  decide

/-- C3 (as amended): when the server answers and the window holds `k` entries
with `k + 1 < 10`, one run of the telemetry step leaves the window holding
`k + 1` entries, the new sample at the head followed by the `k` earlier entries
unchanged; no element is popped and the step ends normally. -/
theorem telemetryStep_below_capacity (st : Store) (unixNano : Int) (hup : st.up = true)
    (hk : st.nrflatency.length + 1 < 10) :
    (telemetryStep st unixNano).store.nrflatency =
      FormatInt (timeTotal st unixNano) :: st.nrflatency ∧
    (telemetryStep st unixNano).store.nrflatency.length = st.nrflatency.length + 1 ∧
    Effect.redisLPop "nrflatency" ∉ (telemetryStep st unixNano).effects ∧
    (telemetryStep st unixNano).result = Except.ok () := by
  obtain ⟨hs, hr, he⟩ := telemetryStep_short st unixNano hup (by omega)
  refine ⟨?_, ?_, he, hr⟩
  · rw [hs]
  · rw [hs]; simp

/-- Witness of C3: the second scenario of the specification, the window
`["150"]` and the new sample `300`. -/
theorem telemetryStep_below_capacity_witness :
    (telemetryStep ⟨true, some "0", ["150"]⟩ 300000).store.nrflatency = ["300", "150"] :=
  (telemetryStep_below_capacity ⟨true, some "0", ["150"]⟩ 300000 rfl (by decide)).1

/-- C3 as stated fails at `k = 9`: the push brings the window to ten entries,
the length check fires and the ten entries are replaced by their mean. -/
theorem telemetryStep_nine_is_compacted :
    (List.replicate 9 "100").length < 10 ∧
    (telemetryStep ⟨true, some "0", List.replicate 9 "100"⟩ 200000).store.nrflatency = ["110"] ∧
    (telemetryStep ⟨true, some "0", List.replicate 9 "100"⟩ 200000).store.nrflatency ≠
      FormatInt (timeTotal ⟨true, some "0", List.replicate 9 "100"⟩ 200000) ::
        List.replicate 9 "100" := by
  decide

/-! ## Windows longer than ten, and malformed entries -/

/-- When more than ten iterations are due and the first ten entries parse, the
loop pops an eleventh entry and faults on the index 11 of the arrays of length
11; nothing is pushed back. -/
theorem compaction_beyond_ten (st : Store) (es : List String) (x : String) (rest : List String)
    (vs : List Int) (hup : st.up = true) (hw : st.nrflatency = es ++ x :: rest)
    (hlen : es.length = 10) (hp : es.map ParseInt = vs.map (fun v => (v, none))) :
    (compaction (st.nrflatency.length : Int) st).result =
      Except.error (Err.indexOutOfRange 11 11) ∧
    (compaction (st.nrflatency.length : Int) st).store.nrflatency = rest ∧
    ∀ v, Effect.redisLPush "nrflatency" v ∉
      (compaction (st.nrflatency.length : Int) st).effects := by
  have hn : st.nrflatency.length = es.length + (rest.length + 1) := by
    rw [hw]; simp
  have h := drainLoop_pops es vs (x :: rest) (rest.length + 1) 1 0 st hup hw hp (by omega)
  have hpop : ({ st with nrflatency := x :: rest } : Store).LPop =
      ({ st with nrflatency := rest }, x, none) := by
    simp [Store.LPop, hup]
  have h11 : 1 + es.length ≥ 11 := by omega
  have hstep : drainLoop (rest.length + 1) (1 + es.length) (runningTotal 0 vs)
      { st with nrflatency := x :: rest } =
      ⟨[Effect.redisLPop "nrflatency"], { st with nrflatency := rest },
        Except.error (Err.indexOutOfRange (1 + es.length) 11)⟩ := by
    simp only [drainLoop, hpop, if_pos h11]
  rw [hstep] at h
  simp only [compaction, Int.toNat_ofNat]
  rw [hn, h]
  refine ⟨?_, ?_, ?_⟩
  · simp [hlen]
  · simp
  · intro v
    simp

/-- When the first entry that does not parse is among the first ten, the loop
ends in a panic with the parse error at that entry: the entries up to and
including it have been popped, the later ones are left, nothing is pushed
back. -/
theorem compaction_malformed (st : Store) (es : List String) (b : String) (rest : List String)
    (vs : List Int) (e : NumErr) (hup : st.up = true) (hw : st.nrflatency = es ++ b :: rest)
    (hlen : es.length < 10) (hp : es.map ParseInt = vs.map (fun v => (v, none)))
    (hb : (ParseInt b).2 = some e) :
    (compaction (st.nrflatency.length : Int) st).result = Except.error (Err.num b e) ∧
    (compaction (st.nrflatency.length : Int) st).store.nrflatency = rest ∧
    ∀ v, Effect.redisLPush "nrflatency" v ∉
      (compaction (st.nrflatency.length : Int) st).effects := by
  have hn : st.nrflatency.length = es.length + (rest.length + 1) := by
    rw [hw]; simp
  have h := drainLoop_pops es vs (b :: rest) (rest.length + 1) 1 0 st hup hw hp (by omega)
  have hpop : ({ st with nrflatency := b :: rest } : Store).LPop =
      ({ st with nrflatency := rest }, b, none) := by
    simp [Store.LPop, hup]
  have h11 : ¬ (1 + es.length ≥ 11) := by omega
  have hstep : drainLoop (rest.length + 1) (1 + es.length) (runningTotal 0 vs)
      { st with nrflatency := b :: rest } =
      ⟨[Effect.redisLPop "nrflatency"], { st with nrflatency := rest },
        Except.error (Err.num b e)⟩ := by
    simp only [drainLoop, hpop, if_neg h11, hb]
  rw [hstep] at h
  simp only [compaction, Int.toNat_ofNat]
  rw [hn, h]
  refine ⟨?_, ?_, ?_⟩
  · simp
  · simp
  · intro v
    simp

/-- C2, the code at a window of eleven: with ten stored entries `1` and the new
sample `1`, the length read after the push is 11; the loop pops all eleven
entries, faults with "index out of range [11] with length 11" on the array
`nrf`, pushes no mean back and leaves the window empty, and `Start` ends in
that panic. -/
theorem compaction_faults_at_eleven :
    (⟨true, some "0", List.replicate 10 "1"⟩ : Store).LPush "1" =
      (⟨true, some "0", List.replicate 11 "1"⟩, none) ∧
    (∀ e ∈ List.replicate 11 "1", ParseInt e = (1, none)) ∧
    (telemetryStep ⟨true, some "0", List.replicate 10 "1"⟩ 1000).result =
      Except.error (Err.indexOutOfRange 11 11) ∧
    (telemetryStep ⟨true, some "0", List.replicate 10 "1"⟩ 1000).store.nrflatency = [] ∧
    (telemetryStep ⟨true, some "0", List.replicate 10 "1"⟩ 1000).effects.count
      (Effect.redisLPop "nrflatency") = 11 ∧
    (Start ⟨⟨true, some "0", List.replicate 10 "1"⟩, 1000, "", true, none, "http", none⟩).outcome =
      Outcome.panicked (Err.indexOutOfRange 11 11) := by
  decide

/-- C7, the code at a window of twelve whose last entry is malformed: with the
ten stored entries `1` followed by `x` and the new sample `1`, the loop pops
eleven well-formed entries and faults on the index 11; the malformed entry is
never popped nor parsed and stays in the window. -/
theorem compaction_skips_late_malformed :
    (ParseInt "x").2 = some NumErr.ErrSyntax ∧
    (telemetryStep ⟨true, some "0", List.replicate 10 "1" ++ ["x"]⟩ 1000).result =
      Except.error (Err.indexOutOfRange 11 11) ∧
    (telemetryStep ⟨true, some "0", List.replicate 10 "1" ++ ["x"]⟩ 1000).result ≠
      Except.error (Err.num "x" NumErr.ErrSyntax) ∧
    (telemetryStep ⟨true, some "0", List.replicate 10 "1" ++ ["x"]⟩ 1000).store.nrflatency =
      ["x"] := by
  decide

/-! ## The calls of the telemetry step -/

theorem drainLoop_effects :
    ∀ (r i : Nat) (total : Int) (st : Store),
      ∀ e ∈ (drainLoop r i total st).effects, e = Effect.redisLPop "nrflatency" := by
  intro r
  induction r with
  | zero => intro i total st e h; simp [drainLoop] at h
  | succ r ih =>
    intro i total st e h
    simp only [drainLoop] at h
    split at h
    · simpa using h
    · split at h
      · simpa using h
      · split at h
        · simpa using h
        · simp only [List.mem_cons] at h
          rcases h with h | h
          · exact h
          · exact ih _ _ _ _ h

theorem compaction_effects (count : Int) (st : Store) :
    ∀ e ∈ (compaction count st).effects, e.isTelemetry = true := by
  intro e h
  simp only [compaction] at h
  split at h
  · simp only [List.mem_cons] at h
    rcases h with h | h
    · subst h; rfl
    · rw [drainLoop_effects _ _ _ _ e h]; rfl
  · simp only [List.cons_append, List.mem_cons, List.mem_append, List.mem_singleton,
      List.not_mem_nil, or_false] at h
    rcases h with h | h | h | h
    · subst h; rfl
    · rw [drainLoop_effects _ _ _ _ e h]; rfl
    · subst h; rfl
    · subst h; rfl

theorem printErr_effects (o : Option Err) : ∀ e ∈ printErr o, e.isTelemetry = true := by
  intro e h
  cases o with
  | none => simp [printErr] at h
  | some x =>
    simp only [printErr, List.mem_singleton] at h
    subst h; rfl

theorem telemetryStep_effects (st : Store) (unixNano : Int) :
    ∀ e ∈ (telemetryStep st unixNano).effects, e.isTelemetry = true := by
  intro e h
  have hpre : ∀ x ∈ ([Effect.redisNewClient, Effect.redisGet "golang"] ++ printErr st.Get.2 ++
      printErr ((ParseInt st.Get.1).2.map (Err.num st.Get.1)) ++
      [Effect.timeNow,
       Effect.println [PVal.str "NRF config loading end time is :",
         PVal.int (Int.tdiv unixNano 1000)],
       Effect.println [PVal.str "Latency for NRF loading is : ",
         PVal.int (timeTotal st unixNano)],
       Effect.redisPing,
       Effect.println [PVal.str st.Ping.1, PVal.err st.Ping.2],
       Effect.redisLPush "nrflatency" (FormatInt (timeTotal st unixNano)),
       Effect.println [PVal.str "time_total stored"],
       Effect.redisLLen "nrflatency"]), x.isTelemetry = true := by
    intro x hx
    simp only [List.mem_append, List.mem_cons, List.not_mem_nil, or_false] at hx
    rcases hx with ((hx | hx) | hx) | hx
    · rcases hx with hx | hx <;> (subst hx; rfl)
    · exact printErr_effects _ x hx
    · exact printErr_effects _ x hx
    · rcases hx with hx | hx | hx | hx | hx | hx | hx | hx <;> (subst hx; rfl)
  simp only [telemetryStep] at h
  split at h
  · exact hpre e h
  · split at h
    · simp only [List.mem_append] at h
      rcases h with (h | h) | h
      · exact hpre e (by simpa only [List.mem_append] using h)
      · simp only [List.mem_singleton] at h
        subst h; rfl
      · exact compaction_effects _ _ e h
    · simp only [List.mem_append] at h
      rcases h with h | h
      · exact hpre e (by simpa only [List.mem_append] using h)
      · simp only [List.mem_singleton] at h
        subst h; rfl

/-- The push of the latency sample is among the calls of every run of the
telemetry step. -/
theorem telemetryStep_pushes (st : Store) (unixNano : Int) :
    Effect.redisLPush "nrflatency" (FormatInt (timeTotal st unixNano)) ∈
      (telemetryStep st unixNano).effects := by
  simp only [telemetryStep]
  split
  · simp
  · split <;> simp

/-- The errors of `Get` and of `ParseInt` are printed in every run of the
telemetry step. -/
theorem telemetryStep_prints (st : Store) (unixNano : Int) :
    ∀ e ∈ printErr st.Get.2 ++ printErr ((ParseInt st.Get.1).2.map (Err.num st.Get.1)),
      e ∈ (telemetryStep st unixNano).effects := by
  intro e he
  simp only [List.mem_append] at he
  simp only [telemetryStep]
  split
  · simp only [List.mem_append]
    rcases he with he | he
    · exact Or.inl (Or.inl (Or.inr he))
    · exact Or.inl (Or.inr he)
  · split
    · simp only [List.mem_append]
      rcases he with he | he
      · exact Or.inl (Or.inl (Or.inl (Or.inl (Or.inr he))))
      · exact Or.inl (Or.inl (Or.inl (Or.inr he)))
    · simp only [List.mem_append]
      rcases he with he | he
      · exact Or.inl (Or.inl (Or.inl (Or.inr he)))
      · exact Or.inl (Or.inl (Or.inr he))

/-! ## The shape of a run of `Start` -/

theorem isServe_of_isTelemetry {e : Effect} (h : e.isTelemetry = true) : e.isServe = false := by
  cases e <;> simp_all [Effect.isTelemetry, Effect.isServe]

theorem wiring_no_serve (env : Env) : ∀ x ∈ wiring env, x.isServe = false := by
  intro x hx
  simp only [wiring, List.mem_cons, List.not_mem_nil, or_false] at hx
  rcases hx with hx | hx | hx | hx | hx | hx | hx | hx | hx | hx | hx <;> (subst hx; rfl)

theorem serverWarning_no_serve (err : Option String) :
    ∀ x ∈ serverWarning err, x.isServe = false := by
  intro x hx
  cases err with
  | none => simp [serverWarning] at hx
  | some e =>
    simp only [serverWarning, List.mem_singleton] at hx
    subst hx; rfl

theorem upTo_no_serve (env : Env) :
    ∀ x ∈ wiring env ++ (telemetryStep env.store env.unixNano).effects, x.isServe = false := by
  intro x hx
  rcases List.mem_append.mp hx with hx | hx
  · exact wiring_no_serve env x hx
  · exact isServe_of_isTelemetry (telemetryStep_effects _ _ x hx)

theorem preServe_no_serve (env : Env) : ∀ x ∈ preServe env, x.isServe = false := by
  intro x hx
  simp only [preServe, List.mem_append, List.mem_singleton] at hx
  rcases hx with (((hx | hx) | hx) | hx) | hx
  · exact wiring_no_serve env x hx
  · exact isServe_of_isTelemetry (telemetryStep_effects _ _ x hx)
  · subst hx; rfl
  · exact serverWarning_no_serve _ x hx
  · subst hx; rfl

theorem finish_effects (effects : List Effect) (st : Store) (err : Option String) :
    ∃ tl, (finish effects st err).effects = effects ++ tl ∧ (∀ x ∈ tl, x.isServe = false) ∧
      ∀ e, (finish effects st err).outcome ≠ Outcome.panicked e := by
  cases err with
  | none => exact ⟨[], by simp [finish], by simp, by simp [finish]⟩
  | some e =>
    refine ⟨[Effect.logFatal ("HTTP server setup failed: " ++ e)], by simp [finish], ?_,
      by simp [finish]⟩
    intro x hx
    simp only [List.mem_singleton] at hx
    subst hx; rfl

theorem serve_effects (env : Env) (effects : List Effect) (st : Store) (call : Effect) :
    ∃ tl, (serve env effects st call).effects = effects ++ call :: tl ∧
      (∀ x ∈ tl, x.isServe = false) ∧
      ∀ e, (serve env effects st call).outcome ≠ Outcome.panicked e := by
  unfold serve
  cases env.serveResult with
  | none => exact ⟨[], by simp, by simp, by simp⟩
  | some err =>
    obtain ⟨tl, h1, h2, h3⟩ := finish_effects (effects ++ [call]) st err
    exact ⟨tl, by simpa using h1, h2, h3⟩

/-- A run of `Start` either makes no serve call, or consists of the calls of
`preServe`, one serve call, and calls that are not serve calls. -/
theorem Start_shape (env : Env) :
    (∀ x ∈ (Start env).effects, x.isServe = false) ∨
    ∃ call tl, call.isServe = true ∧ (∀ x ∈ tl, x.isServe = false) ∧
      (Start env).effects = preServe env ++ call :: tl := by
  unfold Start
  simp only
  split
  · left
    exact upTo_no_serve env
  · by_cases hs : env.server = false
    · left
      rw [if_pos hs]
      intro x hx
      simp only [List.mem_append, List.mem_cons, List.not_mem_nil, or_false] at hx
      rcases hx with (hx | hx) | hx
      · exact wiring_no_serve env x hx
      · exact isServe_of_isTelemetry (telemetryStep_effects _ _ x hx)
      · rcases hx with hx | hx <;> (subst hx; rfl)
    · rw [if_neg hs]
      by_cases h1 : env.scheme = "http"
      · right
        rw [if_pos h1]
        obtain ⟨tl, ht, hn, _⟩ := serve_effects env (preServe env) (telemetryStep env.store env.unixNano).store
          Effect.listenAndServe
        exact ⟨Effect.listenAndServe, tl, rfl, hn, ht⟩
      · rw [if_neg h1]
        by_cases h2 : env.scheme = "https"
        · right
          rw [if_pos h2]
          obtain ⟨tl, ht, hn, _⟩ := serve_effects env (preServe env)
            (telemetryStep env.store env.unixNano).store Effect.listenAndServeTLS
          exact ⟨Effect.listenAndServeTLS, tl, rfl, hn, ht⟩
        · left
          rw [if_neg h2]
          obtain ⟨tl, ht, hn, _⟩ := finish_effects (preServe env)
            (telemetryStep env.store env.unixNano).store env.serverErr
          intro x hx
          have hx2 : x ∈ preServe env ++ tl := by
            rw [← ht]; exact hx
          rcases List.mem_append.mp hx2 with hx2 | hx2
          · exact preServe_no_serve env x hx2
          · exact hn x hx2

/-- A list splits in one way only around an element with a property that no
other element has. -/
theorem split_unique {α : Type} (p : α → Bool) :
    ∀ (m1 pre : List α) (a b : α) (m2 post : List α),
      (∀ x ∈ m1, p x = false) → (∀ x ∈ m2, p x = false) → p a = true →
      pre ++ a :: post = m1 ++ b :: m2 → pre = m1 := by
  intro m1
  induction m1 with
  | nil =>
    intro pre a b m2 post _ h2 ha h
    cases pre with
    | nil => rfl
    | cons y pre =>
      simp only [List.cons_append, List.nil_append, List.cons.injEq] at h
      have hmem : a ∈ m2 := by rw [← h.2]; simp
      have := h2 a hmem
      rw [ha] at this
      cases this
  | cons x m1 ih =>
    intro pre a b m2 post h1 h2 ha h
    cases pre with
    | nil =>
      simp only [List.nil_append, List.cons_append, List.cons.injEq] at h
      have := h1 x (by simp)
      rw [← h.1, ha] at this
      cases this
    | cons y pre =>
      simp only [List.cons_append, List.cons.injEq] at h
      rw [h.1, ih pre a b m2 post (fun z hz => h1 z (List.mem_cons_of_mem _ hz)) h2 ha h.2]

theorem count_telemetry_zero (st : Store) (unixNano : Int) (e : Effect)
    (h : e.isTelemetry = false) : (telemetryStep st unixNano).effects.count e = 0 := by
  rw [List.count_eq_zero]
  intro hmem
  rw [telemetryStep_effects st unixNano e hmem] at h
  cases h

theorem count_serverWarning_zero (err : Option String) (e : Effect)
    (h : ∀ m, e ≠ Effect.logWarn m) : (serverWarning err).count e = 0 := by
  rw [List.count_eq_zero]
  intro hmem
  cases err with
  | none => simp [serverWarning] at hmem
  | some x =>
    simp only [serverWarning, List.mem_singleton] at hmem
    exact h _ hmem

/-! ## The order of effects in `Start` (C9) -/

/-- C9: in every run of `Start`, whatever comes before a serve call
(`ListenAndServe` or `ListenAndServeTLS`) contains each of the three route-group
registrations and the context initialisation exactly once, the registration of
the signal watcher (the `signal.Notify` call and the `go` statement) and the
push of the latency sample, and contains no serve call. -/
theorem Start_wiring_before_serve (env : Env) (pre post : List Effect) (call : Effect)
    (hcall : call = Effect.listenAndServe ∨ call = Effect.listenAndServeTLS)
    (hsplit : (Start env).effects = pre ++ call :: post) :
    pre.count (Effect.addService Service.accesstoken) = 1 ∧
    pre.count (Effect.addService Service.discovery) = 1 ∧
    pre.count (Effect.addService Service.management) = 1 ∧
    pre.count Effect.initNrfContext = 1 ∧
    Effect.signalNotify ∈ pre ∧
    Effect.goWatcher ∈ pre ∧
    Effect.redisLPush "nrflatency" (FormatInt (timeTotal env.store env.unixNano)) ∈ pre ∧
    Effect.listenAndServe ∉ pre ∧
    Effect.listenAndServeTLS ∉ pre := by
  have hserve : call.isServe = true := by
    rcases hcall with h | h <;> (subst h; rfl)
  have hpre : pre = preServe env := by
    rcases Start_shape env with hno | ⟨c, tl, _, htl, heq⟩
    · have := hno call (by rw [hsplit]; simp)
      rw [hserve] at this
      cases this
    · rw [heq] at hsplit
      exact split_unique Effect.isServe (preServe env) pre call c tl post
        (preServe_no_serve env) htl hserve hsplit.symm
  subst hpre
  have hcount : ∀ e : Effect, e.isTelemetry = false → (∀ m, e ≠ Effect.logWarn m) →
      e ≠ Effect.newServer → e ≠ Effect.getSbiScheme →
      (preServe env).count e = (wiring env).count e := by
    intro e h1 h2 h3 h4
    simp only [preServe, List.count_append, count_telemetry_zero _ _ e h1,
      count_serverWarning_zero _ e h2]
    simp [List.count_cons, h3.symm, h4.symm]
  refine ⟨?_, ?_, ?_, ?_, ?_, ?_, ?_, ?_, ?_⟩
  · rw [hcount (Effect.addService Service.accesstoken) rfl (by simp) (by simp) (by simp)]
    simp [wiring, List.count_cons]
  · rw [hcount (Effect.addService Service.discovery) rfl (by simp) (by simp) (by simp)]
    simp [wiring, List.count_cons]
  · rw [hcount (Effect.addService Service.management) rfl (by simp) (by simp) (by simp)]
    simp [wiring, List.count_cons]
  · rw [hcount Effect.initNrfContext rfl (by simp) (by simp) (by simp)]
    simp [wiring, List.count_cons]
  · simp [preServe, wiring]
  · simp [preServe, wiring]
  · simp only [preServe, List.mem_append]
    exact Or.inl (Or.inl (Or.inl (Or.inr (telemetryStep_pushes _ _))))
  · intro h
    have := preServe_no_serve env _ h
    cases this
  · intro h
    have := preServe_no_serve env _ h
    cases this

/-- Witness of C9: a run over plain HTTP with an empty window; the serve call
is the 25th call of the run. -/
theorem Start_wiring_before_serve_witness :
    (Start ⟨⟨true, some "0", []⟩, 5000, "127.0.0.10:8000", true, none, "http", none⟩).effects =
      (Start ⟨⟨true, some "0", []⟩, 5000, "127.0.0.10:8000", true, none, "http",
        none⟩).effects.take 24 ++ Effect.listenAndServe :: [] ∧
    Effect.goWatcher ∈
      (Start ⟨⟨true, some "0", []⟩, 5000, "127.0.0.10:8000", true, none, "http",
        none⟩).effects.take 24 :=
  ⟨by decide,
   (Start_wiring_before_serve
      ⟨⟨true, some "0", []⟩, 5000, "127.0.0.10:8000", true, none, "http", none⟩ _ []
      Effect.listenAndServe (Or.inl rfl) (by decide)).2.2.2.2.2.1⟩

/-! ## Failures of the store in `Start` (C6) -/

theorem Start_of_ok (env : Env)
    (h : (telemetryStep env.store env.unixNano).result = Except.ok ()) :
    Effect.newServer ∈ (Start env).effects ∧
    (∀ e, (Start env).outcome ≠ Outcome.panicked e) ∧
    ∀ x ∈ (telemetryStep env.store env.unixNano).effects, x ∈ (Start env).effects := by
  unfold Start
  simp only [h]
  by_cases hs : env.server = false
  · rw [if_pos hs]
    refine ⟨by simp, by simp, ?_⟩
    intro x hx
    simp [hx]
  · rw [if_neg hs]
    have hnew : Effect.newServer ∈ wiring env ++ (telemetryStep env.store env.unixNano).effects ++
        [Effect.newServer] ++ serverWarning env.serverErr ++ [Effect.getSbiScheme] := by simp
    have htel : ∀ x ∈ (telemetryStep env.store env.unixNano).effects,
        x ∈ wiring env ++ (telemetryStep env.store env.unixNano).effects ++
        [Effect.newServer] ++ serverWarning env.serverErr ++ [Effect.getSbiScheme] := by
      intro x hx
      simp [hx]
    by_cases h1 : env.scheme = "http"
    · rw [if_pos h1]
      obtain ⟨tl, ht, _, hp⟩ := serve_effects env
        (wiring env ++ (telemetryStep env.store env.unixNano).effects ++
          [Effect.newServer] ++ serverWarning env.serverErr ++ [Effect.getSbiScheme])
        (telemetryStep env.store env.unixNano).store Effect.listenAndServe
      rw [ht]
      exact ⟨List.mem_append_left _ hnew, hp, fun x hx => List.mem_append_left _ (htel x hx)⟩
    · rw [if_neg h1]
      by_cases h2 : env.scheme = "https"
      · rw [if_pos h2]
        obtain ⟨tl, ht, _, hp⟩ := serve_effects env
          (wiring env ++ (telemetryStep env.store env.unixNano).effects ++
            [Effect.newServer] ++ serverWarning env.serverErr ++ [Effect.getSbiScheme])
          (telemetryStep env.store env.unixNano).store Effect.listenAndServeTLS
        rw [ht]
        exact ⟨List.mem_append_left _ hnew, hp, fun x hx => List.mem_append_left _ (htel x hx)⟩
      · rw [if_neg h2]
        obtain ⟨tl, ht, _, hp⟩ := finish_effects
          (wiring env ++ (telemetryStep env.store env.unixNano).effects ++
            [Effect.newServer] ++ serverWarning env.serverErr ++ [Effect.getSbiScheme])
          (telemetryStep env.store env.unixNano).store env.serverErr
        rw [ht]
        exact ⟨List.mem_append_left _ hnew, hp, fun x hx => List.mem_append_left _ (htel x hx)⟩

/-- A panic of the telemetry step ends `Start` there: the HTTP server is not
created. -/
theorem Start_of_error (env : Env) (e : Err)
    (h : (telemetryStep env.store env.unixNano).result = Except.error e) :
    (Start env).outcome = Outcome.panicked e ∧ Effect.newServer ∉ (Start env).effects := by
  unfold Start
  simp only [h]
  refine ⟨trivial, ?_⟩
  intro hmem
  rcases List.mem_append.mp hmem with hmem | hmem
  · simp [wiring] at hmem
  · have := telemetryStep_effects _ _ _ hmem
    cases this

/-- When the server does not answer, the error of `LLen` is raised as a panic:
`Start` ends before the HTTP server is created. -/
theorem Start_store_down (env : Env) (hdown : env.store.up = false) :
    (Start env).outcome = Outcome.panicked Err.redisDown ∧
    Effect.newServer ∉ (Start env).effects := by
  apply Start_of_error
  simp [telemetryStep, Store.LPush, Store.LLen, hdown]

theorem parse_map_of_forall (es : List String) (h : ∀ x ∈ es, (ParseInt x).2 = none) :
    es.map ParseInt = (es.map (fun x => (ParseInt x).1)).map (fun v => (v, none)) := by
  rw [List.map_map]
  apply List.map_congr_left
  intro x hx
  have := h x hx
  simp only [Function.comp]
  rw [← this]

/-- C6 (as amended): when the server answers, the reference key `golang` is
absent or its value does not parse, and the window after the push is shorter
than ten or holds exactly ten entries that parse, the error is only printed:
`Start` does not panic and goes on to create the HTTP server. -/
theorem Start_survives_missing_reference (env : Env) (hup : env.store.up = true)
    (hfail : env.store.golang = none ∨
      ∃ v e, env.store.golang = some v ∧ (ParseInt v).2 = some e)
    (hwin : env.store.nrflatency.length < 9 ∨
      (env.store.nrflatency.length = 9 ∧ ∀ x ∈ env.store.nrflatency, (ParseInt x).2 = none)) :
    (∃ e, Effect.println [PVal.err (some e)] ∈ (Start env).effects) ∧
    (env.store.golang = none →
      Effect.println [PVal.err (some Err.redisNil)] ∈ (Start env).effects) ∧
    Effect.newServer ∈ (Start env).effects ∧
    (∀ e, (Start env).outcome ≠ Outcome.panicked e) := by
  have hok : (telemetryStep env.store env.unixNano).result = Except.ok () := by
    rcases hwin with hlt | ⟨h9, hall⟩
    · exact (telemetryStep_short env.store env.unixNano hup hlt).2.1
    · rw [(telemetryStep_nine env.store env.unixNano hup h9).2]
      refine (compaction_ten
        { env.store with
          nrflatency := FormatInt (timeTotal env.store env.unixNano) :: env.store.nrflatency }
        ((FormatInt (timeTotal env.store env.unixNano) :: env.store.nrflatency).map
          (fun x => (ParseInt x).1)) hup (by simp [h9]) ?_).2
      apply parse_map_of_forall
      intro x hx
      simp only [List.mem_cons] at hx
      rcases hx with hx | hx
      · rw [hx, ParseInt_FormatInt _ (inInt64_timeTotal _ _)]
      · exact hall x hx
  obtain ⟨hnew, hpanic, htel⟩ := Start_of_ok env hok
  have hprints := telemetryStep_prints env.store env.unixNano
  refine ⟨?_, ?_, hnew, hpanic⟩
  · rcases hfail with hnone | ⟨v, e, hv, he⟩
    · refine ⟨Err.redisNil, htel _ (hprints _ ?_)⟩
      simp [Store.Get, hup, hnone, printErr]
    · refine ⟨Err.num v e, htel _ (hprints _ ?_)⟩
      simp [Store.Get, hup, hv, he, printErr]
  · intro hnone
    refine htel _ (hprints _ ?_)
    simp [Store.Get, hup, hnone, printErr]

/-- Witness of C6: the first run, with the key `golang` absent and the window
empty. -/
theorem Start_survives_missing_reference_witness :
    (⟨true, none, []⟩ : Store).golang = none ∧
    Effect.newServer ∈
      (Start ⟨⟨true, none, []⟩, 5000, "127.0.0.10:8000", true, none, "http", none⟩).effects :=
  ⟨rfl,
   (Start_survives_missing_reference
      ⟨⟨true, none, []⟩, 5000, "127.0.0.10:8000", true, none, "http", none⟩ rfl (Or.inl rfl)
      (Or.inl (by decide))).2.2.1⟩

/-- C6 as stated fails when the server does not answer: every call on the
store returns an error, the error of `LLen` is raised as a panic, and `Start`
ends without creating the HTTP server. -/
theorem Start_panics_when_store_down :
    (⟨false, none, []⟩ : Store).Get.2 = some Err.redisDown ∧
    (⟨false, none, []⟩ : Store).Ping.2 = some Err.redisDown ∧
    ((⟨false, none, []⟩ : Store).LPush "5").2 = some Err.redisDown ∧
    (⟨false, none, []⟩ : Store).LLen.2 = some Err.redisDown ∧
    (⟨false, none, []⟩ : Store).LPop.2.2 = some Err.redisDown ∧
    (Start ⟨⟨false, none, []⟩, 5000, "127.0.0.10:8000", true, none, "http", none⟩).outcome =
      Outcome.panicked Err.redisDown ∧
    Effect.newServer ∉
      (Start ⟨⟨false, none, []⟩, 5000, "127.0.0.10:8000", true, none, "http", none⟩).effects := by
  decide

/-! ## `FilterCli` (C5) -/

theorem FilterCli_foldl (c : Context) (value : String → String) (flags : List StringFlag) :
    ∀ acc : List String, (∀ f ∈ flags, c.flagSet f.Name = some (value f.Name)) →
      flags.foldl
        (fun args flag =>
          if Sprint (c.Generic flag.Name) = "" then args
          else args ++ ["--" ++ flag.Name, Sprint (c.Generic flag.Name)])
        acc =
      acc ++ (flags.filter (fun f => decide (value f.Name ≠ ""))).flatMap
        (fun f => ["--" ++ f.Name, value f.Name]) := by
  induction flags with
  | nil => intro acc _; simp
  | cons f fs ih =>
    intro acc h
    have hf : Sprint (c.Generic f.Name) = value f.Name := by
      simp [Context.Generic, h f (by simp), Sprint]
    have hrest := fun acc2 => ih acc2 (fun g hg => h g (List.mem_cons_of_mem _ hg))
    simp only [List.foldl_cons, hf]
    by_cases hv : value f.Name = ""
    · rw [if_pos hv, hrest]
      simp [List.filter_cons, hv]
    · rw [if_neg hv, hrest]
      simp [List.filter_cons, hv]

theorem length_flatMap_pairs (value : String → String) (flags : List StringFlag) :
    (flags.flatMap (fun f => ["--" ++ f.Name, value f.Name])).length = 2 * flags.length := by
  induction flags with
  | nil => simp
  | cons f fs ih =>
    simp only [List.flatMap_cons, List.length_append, ih, List.length_cons, List.length_nil]
    omega

/-- C5: when the flag set gives a string value to each flag of `nrfCLi`,
`FilterCli` returns the concatenation, in the order of `nrfCLi`, of the pairs
`["--" ++ name, value]` of the flags whose value is not empty; the result has
twice as many elements as there are such flags. -/
theorem FilterCli_emits_set_flags (c : Context) (value : String → String)
    (hset : ∀ f ∈ nrfCLi, c.flagSet f.Name = some (value f.Name)) :
    FilterCli c =
      (nrfCLi.filter (fun f => decide (value f.Name ≠ ""))).flatMap
        (fun f => ["--" ++ f.Name, value f.Name]) ∧
    (FilterCli c).length = 2 * (nrfCLi.filter (fun f => decide (value f.Name ≠ ""))).length := by
  have h := FilterCli_foldl c value nrfCLi [] hset
  have hF : FilterCli c =
      (nrfCLi.filter (fun f => decide (value f.Name ≠ ""))).flatMap
        (fun f => ["--" ++ f.Name, value f.Name]) := by
    unfold FilterCli GetCliCmd
    simpa using h
  refine ⟨hF, ?_⟩
  rw [hF, length_flatMap_pairs]

/-- Witness of C5: only `nrfcfg` is given a value. -/
theorem FilterCli_emits_set_flags_witness :
    FilterCli ⟨fun n => if n = "nrfcfg" then some "nrfcfg.yaml" else some ""⟩ =
      ["--nrfcfg", "nrfcfg.yaml"] :=
  (FilterCli_emits_set_flags ⟨fun n => if n = "nrfcfg" then some "nrfcfg.yaml" else some ""⟩
    (fun n => if n = "nrfcfg" then "nrfcfg.yaml" else "") (by decide)).1.trans (by decide)

/-! ## `Terminate` (C4) -/

/-- C4 (as amended): `Terminate` has no guard and keeps no state.  Each call
leaves the logger level as it is and appends the same records to the log: the
two Info records when the level enables Info, nothing otherwise.  Two calls in
sequence write the records of one call twice, and the second call changes
nothing exactly when the level disables Info. -/
theorem Terminate_appends_each_call (lg : Logger) :
    (Terminate lg).level = lg.level ∧
    (Terminate lg).records = lg.records ++ terminateRecords lg.level ∧
    (Terminate (Terminate lg)).records =
      lg.records ++ terminateRecords lg.level ++ terminateRecords lg.level ∧
    (Terminate (Terminate lg) = Terminate lg ↔ lg.level < InfoLevel) := by
  by_cases h : lg.level ≥ InfoLevel
  · have hT : Terminate lg = ⟨lg.level, lg.records ++ terminateRecords lg.level⟩ := by
      simp [Terminate, Logger.Infof, terminateRecords, h]
    have hTT : Terminate (Terminate lg) =
        ⟨lg.level, lg.records ++ terminateRecords lg.level ++ terminateRecords lg.level⟩ := by
      rw [hT]
      simp [Terminate, Logger.Infof, terminateRecords, h]
    refine ⟨by rw [hT], by rw [hT], by rw [hTT], ?_⟩
    rw [hTT, hT]
    simp [terminateRecords, h]
  · have hT : Terminate lg = lg := by
      simp [Terminate, Logger.Infof, h]
    refine ⟨by rw [hT], ?_, ?_, ?_⟩
    · simp [hT, terminateRecords, h]
    · simp [hT, terminateRecords, h]
    · rw [hT, hT]
      simp only [true_iff]
      omega

/-- C4 as stated fails: with the Info level enabled, a second call of
`Terminate` writes the two records again, so two calls leave four records and
one call leaves two. -/
theorem Terminate_not_idempotent :
    Terminate (Terminate ⟨InfoLevel, []⟩) ≠ Terminate ⟨InfoLevel, []⟩ ∧
    (Terminate ⟨InfoLevel, []⟩).records.length = 2 ∧
    (Terminate (Terminate ⟨InfoLevel, []⟩)).records.length = 4 := by
  decide

end NRF
